import Mathlib

/-
Verification of the collection engine of the youtube-dashboard-backend
repository: a shallow embedding of the rate limiter, the credential pool,
the request executor's retry/rotation policy, the identifier resolver, the
paginated video fetcher and the per-run orchestration from src/collector.py
and src/main.py, together with proofs about the claims of the spec.

Modelling conventions:
- timestamps and durations are rationals (seconds), UTC calendar dates are
  integers (day numbers);
- the 19 api key slots are modelled by indices 0..n-1; `exhausted[i] = some d`
  models `exhausted_keys_date[i] = d` of YouTubeCollector;
- wall-clock pacing (asyncio sleeps, the per-key RateLimiter consultation
  inside make_api_request) and the advisory quota-unit counters
  (total_quota_units, quota_units_per_key, quota_units_per_canal) are
  abstracted away: in the source they never influence the control flow or the
  returned values of the functions modelled here, only timing and logging;
- the HTTP layer is a script of classified responses consumed one per request,
  mirroring the classification branches of make_api_request.
-/

namespace YTDB

/-! ## RateLimiter (src/collector.py, class RateLimiter) -/

/-- State of `RateLimiter`: the configured window and the deque of recorded
request timestamps, oldest first. -/
structure RateLimiter where
  max_requests : Nat
  time_window : ℚ
  requests : List ℚ
deriving DecidableEq

/-- The popleft loop of `RateLimiter._clean_old_requests`: remove leading
timestamps strictly older than the cutoff, stopping at the first fresh one. -/
def cleanOldList (cutoff : ℚ) : List ℚ → List ℚ
  | [] => []
  | t :: ts => if t < cutoff then cleanOldList cutoff ts else t :: ts

/-- `RateLimiter._clean_old_requests(self)` at current time `now`. -/
def RateLimiter.clean_old_requests (rl : RateLimiter) (now : ℚ) : RateLimiter :=
  { rl with requests := cleanOldList (now - rl.time_window) rl.requests }

/-- `RateLimiter.can_make_request(self)` at current time `now`. -/
def RateLimiter.can_make_request (rl : RateLimiter) (now : ℚ) : Bool :=
  decide ((rl.clean_old_requests now).requests.length < rl.max_requests)

/-- `RateLimiter.get_wait_time(self)` at current time `now`.  The `[]` branch
of the match is unreachable whenever `max_requests > 0` (in the source it
would be an IndexError on `self.requests[0]`, but `max_requests` is always
positive there). -/
def RateLimiter.get_wait_time (rl : RateLimiter) (now : ℚ) : ℚ :=
  let cleaned := rl.clean_old_requests now
  if cleaned.requests.length < rl.max_requests then 0
  else
    match cleaned.requests with
    | [] => 0
    | oldest :: _ => max 0 (oldest + rl.time_window - now)

/-- `RateLimiter.record_request(self)` at current time `now`. -/
def RateLimiter.record_request (rl : RateLimiter) (now : ℚ) : RateLimiter :=
  let cleaned := rl.clean_old_requests now
  { cleaned with requests := cleaned.requests ++ [now] }

/-! ## Credential pool state (src/collector.py, class YouTubeCollector) -/

/-- Pool state of `YouTubeCollector`.  `exhausted` has one entry per api key:
`exhausted[i] = some d` models `i in exhausted_keys_date` with
`exhausted_keys_date[i] = d`. -/
structure Collector where
  exhausted : List (Option Int)
  current_key_index : Nat
deriving DecidableEq

/-- `YouTubeCollector.all_keys_exhausted(self)`:
`len(self.exhausted_keys_date) >= len(self.api_keys)`.  Note that the source
compares the *number* of recorded exhaustion entries against the number of
keys; the recorded dates themselves are not inspected. -/
def all_keys_exhausted (c : Collector) : Bool :=
  decide (c.exhausted.length ≤ c.exhausted.countP (fun d => d.isSome))

/-- `self.current_key_index in self.exhausted_keys_date` for key `i`. -/
def keyExhausted (ex : List (Option Int)) (i : Nat) : Bool :=
  (ex.getD i none).isSome

/-- The bounded skip-exhausted-keys loop shared by `get_current_api_key` and
`rotate_to_next_key`:
`while current in exhausted and attempts < len(keys): current = (current+1) % len(keys)`.
Returns the final index and the number of attempts consumed; `fuel` is the
remaining attempt allowance (`len(keys) - attempts`). -/
def find_available (ex : List (Option Int)) : Nat → Nat → Nat × Nat
  | idx, 0 => (idx, 0)
  | idx, fuel + 1 =>
    if keyExhausted ex idx then
      let r := find_available ex ((idx + 1) % ex.length) fuel
      (r.1, r.2 + 1)
    else (idx, 0)

/-- `YouTubeCollector.get_current_api_key(self)`.  Returns the selected key
index (the key itself is opaque) together with the updated pool state, since
the source mutates `current_key_index` while skipping exhausted keys. -/
def get_current_api_key (c : Collector) : Option Nat × Collector :=
  if all_keys_exhausted c then (none, c)
  else
    let n := c.exhausted.length
    let r := find_available c.exhausted c.current_key_index n
    let c1 : Collector := { c with current_key_index := r.1 }
    if n ≤ r.2 then (none, c1) else (some r.1, c1)

/-- `YouTubeCollector.rotate_to_next_key(self)`. -/
def rotate_to_next_key (c : Collector) : Collector :=
  let n := c.exhausted.length
  let r := find_available c.exhausted ((c.current_key_index + 1) % n) n
  { c with current_key_index := r.1 }

/-- `YouTubeCollector.mark_key_as_exhausted(self)`: record today's UTC date
for the current key, then rotate. -/
def mark_key_as_exhausted (today : Int) (c : Collector) : Collector :=
  rotate_to_next_key
    { c with exhausted := c.exhausted.set c.current_key_index (some today) }

/-- `YouTubeCollector.reset_for_new_collection(self)` restricted to the pool
state: delete every exhaustion entry whose date is strictly before today.
(The source additionally zeroes the advisory counters and the failed-canal
set, which are not part of the modelled state.) -/
def reset_for_new_collection (today : Int) (c : Collector) : Collector :=
  { c with
    exhausted := c.exhausted.map (fun d =>
      match d with
      | some x => if x < today then none else some x
      | none => none) }

/-! ## Request executor (src/collector.py, YouTubeCollector.make_api_request) -/

/-- `self.max_retries` of YouTubeCollector. -/
def max_retries : Nat := 3

/-- Classified upstream responses, one per HTTP round trip, mirroring the
branches of `make_api_request`: HTTP 200; HTTP 403 whose message/reason
contains quota/dailylimit; HTTP 403 containing ratelimit/usageratelimit;
any other HTTP 403; any other HTTP status; asyncio.TimeoutError. -/
inductive ApiResponse
  | ok
  | quotaError
  | rateLimitError
  | otherForbidden
  | httpError
  | timeout
deriving DecidableEq

/-- Observable events of one `make_api_request` invocation: a request sent
with credential `k` attached, or a backoff sleep of the given number of
seconds (the source's backoff amounts are all integral). -/
inductive Event
  | call (k : Nat)
  | wait (seconds : Int)
deriving DecidableEq

/-- `YouTubeCollector.make_api_request(self, url, params, canal_name, retry_count)`.
The upstream is a script of classified responses consumed one per HTTP round
trip (the payload of a 200 is abstracted to `()`); the result is the returned
value (`some ()` for a JSON payload, `none` for the source's `None`), the
pool state afterwards, and the trace of requests and backoff sleeps.  An
empty script stands for an upstream that never answers (unused by theorems).
The per-key RateLimiter consultation and the `base_delay` pacing sleep are
timing-only and not traced. -/
def make_api_request (today : Int) (c : Collector) (script : List ApiResponse)
    (retry_count : Nat) : Option Unit × Collector × List Event :=
  if all_keys_exhausted c then (none, c, [])
  else
    match get_current_api_key c with
    | (none, c1) => (none, c1, [])
    | (some k, c1) =>
      match script with
      | [] => (none, c1, [Event.call k])
      | ApiResponse.ok :: _ => (some (), c1, [Event.call k])
      | ApiResponse.quotaError :: rest =>
        let c2 := mark_key_as_exhausted today c1
        if retry_count < max_retries ∧ all_keys_exhausted c2 = false then
          let r := make_api_request today c2 rest (retry_count + 1)
          (r.1, r.2.1, Event.call k :: r.2.2)
        else (none, c2, [Event.call k])
      | ApiResponse.rateLimitError :: rest =>
        if retry_count < max_retries then
          let r := make_api_request today c1 rest (retry_count + 1)
          (r.1, r.2.1, Event.call k :: Event.wait ((2 : Int) ^ retry_count * 30) :: r.2.2)
        else (none, c1, [Event.call k])
      | ApiResponse.otherForbidden :: rest =>
        if retry_count < max_retries then
          let r := make_api_request today c1 rest (retry_count + 1)
          (r.1, r.2.1, Event.call k :: Event.wait ((2 : Int) ^ retry_count * 15) :: r.2.2)
        else (none, c1, [Event.call k])
      | ApiResponse.timeout :: rest =>
        if retry_count < max_retries then
          let r := make_api_request today c1 rest (retry_count + 1)
          (r.1, r.2.1, Event.call k :: Event.wait 5 :: r.2.2)
        else (none, c1, [Event.call k])
      | ApiResponse.httpError :: _ => (none, c1, [Event.call k])
termination_by script.length
decreasing_by all_goals simp

/-! ## Collection orchestrator (src/main.py, run_collection_job) -/

/-- The effect of processing one canal inside the `for` loop of
`run_collection_job`: `dSucc`/`dErr` are the increments applied to
`canais_sucesso`/`canais_erro` over that iteration (the normal paths
increment exactly one of them by 1; an exception after a success can
increment both), and `update` is the change that the iteration's API traffic
makes to the credential pool. -/
structure EntityStep where
  dSucc : Nat
  dErr : Nat
  update : Collector → Collector

/-- The entity loop of `run_collection_job`: before each canal, stop as soon
as `collector.all_keys_exhausted()`.  Returns
`(canais_sucesso, canais_erro, number of canals attempted, final pool)`. -/
def collection_loop (c : Collector) : List EntityStep → Nat × Nat × Nat × Collector
  | [] => (0, 0, 0, c)
  | step :: rest =>
    if all_keys_exhausted c then (0, 0, 0, c)
    else
      let r := collection_loop (step.update c) rest
      (step.dSucc + r.1, step.dErr + r.2.1, 1 + r.2.2.1, r.2.2.2)

/-- The terminal status computation at the end of `run_collection_job`:
`if canais_erro == 0: "sucesso" elif canais_sucesso > 0: "parcial" else: "erro"`.
(`sucesso`/`parcial`/`erro` are the source's names for
Success/Partial/Failed.) -/
def collection_status (canais_sucesso canais_erro : Nat) : String :=
  if canais_erro = 0 then "sucesso"
  else if 0 < canais_sucesso then "parcial"
  else "erro"

/-- The run summary recorded in the coleta log. -/
structure RunResult where
  status : String
  canais_sucesso : Nat
  canais_erro : Nat
  processed : Nat
  final : Collector
deriving DecidableEq

/-- `run_collection_job` (normal, exception-free exit): reset the pool for
the new run, walk the canal list, then record the terminal status. -/
def run_collection_job (today : Int) (c : Collector) (steps : List EntityStep) :
    RunResult :=
  let c0 := reset_for_new_collection today c
  let r := collection_loop c0 steps
  { status := collection_status r.1 r.2.1
    canais_sucesso := r.1
    canais_erro := r.2.1
    processed := r.2.2.1
    final := r.2.2.2 }

/-- Claim C1's characterization of the terminal status, as stated: Success
exactly when zero errors; Partial when (≥1 success and ≥1 error) or the loop
stopped early leaving unprocessed entities; Failed when zero successes. -/
def c1_status_spec (res : RunResult) (total : Nat) : Prop :=
  (res.status = "sucesso" ↔ res.canais_erro = 0) ∧
  (res.status = "parcial" ↔
    ((1 ≤ res.canais_sucesso ∧ 1 ≤ res.canais_erro) ∨ res.processed < total)) ∧
  (res.status = "erro" ↔ res.canais_sucesso = 0)

/-! ## Identifier resolution (src/collector.py, get_channel_id and helpers) -/

/-- `YouTubeCollector.is_valid_channel_id(self, channel_id)`:
`channel_id.startswith('UC') and len(channel_id) == 24` (empty strings are
rejected first).  Strings are modelled as `List Char`. -/
def is_valid_channel_id (s : List Char) : Bool :=
  if s.isEmpty then false
  else "UC".data.isPrefixOf s && s.length == 24

/-- The character class `[a-zA-Z0-9_-]` of the `/channel/` pattern. -/
def is_word_char (ch : Char) : Bool :=
  ch.isAlpha || ch.isDigit || ch == '_' || ch == '-'

/-- The character class `[a-zA-Z0-9._-]` of the `/c/` and `/user/` patterns. -/
def is_custom_char (ch : Char) : Bool :=
  ch.isAlpha || ch.isDigit || ch == '.' || ch == '_' || ch == '-'

/-- The character class `[^/?&#]` of the handle pattern. -/
def is_handle_char (ch : Char) : Bool :=
  !(ch == '/' || ch == '?' || ch == '&' || ch == '#')

/-- `re.search(lit + "(" + charclass + "+)", s)`: at the leftmost position
where the literal occurs followed by at least one character of the class,
capture the maximal run of class characters after the literal. -/
def search_capture (lit : List Char) (good : Char → Bool) :
    List Char → Option (List Char)
  | [] => none
  | ch :: rest =>
    if lit.isPrefixOf (ch :: rest) then
      let cap := ((ch :: rest).drop lit.length).takeWhile good
      if cap.isEmpty then search_capture lit good rest else some cap
    else search_capture lit good rest

/-- The path suffixes stripped by `clean_youtube_url`. -/
def strip_words : List (List Char) :=
  ["videos".data, "channel-analytics".data, "about".data, "featured".data,
   "playlists".data, "community".data, "channels".data, "streams".data,
   "shorts".data]

/-- `YouTubeCollector.clean_youtube_url(self, url)`:
`re.sub(r'/(videos|channel-analytics|about|featured|playlists|community|channels|streams|shorts).*$', '', url)`,
i.e. truncate at the leftmost `/` that is followed by one of the suffix
words.  (Inputs containing newlines, where `.*$` behaves differently, are
out of scope.) -/
def clean_youtube_url : List Char → List Char
  | [] => []
  | ch :: rest =>
    if ch == '/' && strip_words.any (fun w => w.isPrefixOf rest) then []
    else ch :: clean_youtube_url rest

/-- Hexadecimal digit value, as used by percent-decoding. -/
def hex_val (ch : Char) : Option Nat :=
  if ch.isDigit then some (ch.toNat - '0'.toNat)
  else if decide ('a'.toNat ≤ ch.toNat) && decide (ch.toNat ≤ 'f'.toNat) then
    some (ch.toNat - 'a'.toNat + 10)
  else if decide ('A'.toNat ≤ ch.toNat) && decide (ch.toNat ≤ 'F'.toNat) then
    some (ch.toNat - 'A'.toNat + 10)
  else none

/-- `urllib.parse.unquote`, applied to extracted handles.  Percent-escapes
are decoded byte-wise here; the UTF-8 recombination of multi-byte escapes is
abstracted (no claim exercises it). -/
def unquote : List Char → List Char
  | '%' :: a :: b :: rest =>
    match hex_val a, hex_val b with
    | some x, some y => Char.ofNat (16 * x + y) :: unquote rest
    | _, _ => '%' :: unquote (a :: b :: rest)
  | ch :: rest => ch :: unquote rest
  | [] => []

/-- The handle/custom/user fall-through of
`YouTubeCollector.extract_channel_identifier` (steps 2-4 and the final
`(None, 'unknown')`). -/
def extract_handle_or_user (url : List Char) : Option (List Char) × String :=
  match search_capture "youtube.com/@".data is_handle_char url with
  | some h => (some (unquote h), "handle")
  | none =>
    match search_capture "youtube.com/c/".data is_custom_char url with
    | some u => (some u, "username")
    | none =>
      match search_capture "youtube.com/user/".data is_custom_char url with
      | some u => (some u, "username")
      | none => (none, "unknown")

/-- `YouTubeCollector.extract_channel_identifier(self, url)`: clean the URL,
then try the `/channel/` pattern (falling through when the captured id is
not a valid channel id), then handle, custom URL and legacy username. -/
def extract_channel_identifier (url0 : List Char) : Option (List Char) × String :=
  let url := clean_youtube_url url0
  match search_capture "youtube.com/channel/".data is_word_char url with
  | some cid =>
    if is_valid_channel_id cid then (some cid, "id")
    else extract_handle_or_user url
  | none => extract_handle_or_user url

/-- `YouTubeCollector.get_channel_id(self, url, canal_name)`.
`resolve_handle` abstracts `get_channel_id_from_handle` (which goes through
the Request Executor): it returns the resolved id together with the number
of executor calls it issued.  The second component of the result counts the
executor calls of the whole resolution. -/
def get_channel_id (resolve_handle : List Char → Option (List Char) × Nat)
    (url : List Char) : Option (List Char) × Nat :=
  match extract_channel_identifier url with
  | (none, _) => (none, 0)
  | (some identifier, id_type) =>
    if id_type == "id" && is_valid_channel_id identifier then (some identifier, 0)
    else if id_type == "handle" || id_type == "username" then
      resolve_handle identifier
    else (none, 0)

/-! ## Paginated video listing (src/collector.py, get_channel_videos) -/

/-- One iteration of the `while True` pagination loop of
`get_channel_videos`: `update` is the change the iteration's API traffic
(the search request plus the get_video_details batch) makes to the pool;
`response` is `none` when `make_api_request` returned `None`, otherwise the
zipped items — `(item, some detail)` when `get_video_details` hydrated the
item, `(item, none)` when its batch failed — together with the presence of
`nextPageToken`.  Items and details are abstracted to naturals. -/
structure PageStep where
  update : Collector → Collector
  response : Option (List (Nat × Option Nat) × Bool)

/-- The `while True` loop of `get_channel_videos`: stop when the pool is
fully exhausted, when the request failed, when a page has no items, or when
there is no continuation token; otherwise append the hydrated items and
continue. -/
def get_channel_videos_loop (c : Collector) :
    List PageStep → List (Nat × Nat) × Collector
  | [] => ([], c)
  | st :: rest =>
    if all_keys_exhausted c then ([], c)
    else
      let c1 := st.update c
      match st.response with
      | none => ([], c1)
      | some (items, hasNext) =>
        if items.isEmpty then ([], c1)
        else
          let vids := items.filterMap (fun p => p.2.map (fun d => (p.1, d)))
          if hasNext then
            let r := get_channel_videos_loop c1 rest
            (vids ++ r.1, r.2)
          else (vids, c1)

/-- `YouTubeCollector.get_channel_videos(self, channel_id, canal_name, days)`:
the guard clauses before the loop (invalid channel id, or an
already-exhausted pool, yield `[]`), then the pagination loop. -/
def get_channel_videos (channel_id : List Char) (c : Collector)
    (script : List PageStep) : List (Nat × Nat) × Collector :=
  if is_valid_channel_id channel_id = false then ([], c)
  else if all_keys_exhausted c then ([], c)
  else get_channel_videos_loop c script

/-- `processes_all c steps`: every step of `steps` is reached and fully
processed (pool never exhausted at a check, every response present with
items and a continuation token). -/
def processes_all (c : Collector) : List PageStep → Bool
  | [] => true
  | st :: rest =>
    !all_keys_exhausted c &&
      (match st.response with
        | some (items, hasNext) => !items.isEmpty && hasNext
        | none => false) &&
      processes_all (st.update c) rest

/-- Pool state after the API traffic of the given pages. -/
def pool_after (c : Collector) : List PageStep → Collector
  | [] => c
  | st :: rest => pool_after (st.update c) rest

/-- The videos accumulated from the given pages (hydrated items only). -/
def accum_vids : List PageStep → List (Nat × Nat)
  | [] => []
  | st :: rest =>
    (match st.response with
      | some (items, _) => items.filterMap (fun p => p.2.map (fun d => (p.1, d)))
      | none => []) ++ accum_vids rest

/-! ## Windowed view sums (src/collector.py, calculate_views_by_period) -/

/-- One entry of the `videos` list as consumed by
`calculate_views_by_period`: `data_publicacao` is the publication instant
(`none` models a timestamp on which `datetime.fromisoformat` raises, so the
video is skipped by the `except` branch), `views_atuais` the view count. -/
structure VideoEntry where
  data_publicacao : Option ℚ
  views_atuais : ℤ
deriving DecidableEq

/-- The per-period sums of `calculate_views_by_period` (the `count_*`
variables are logging-only and omitted). -/
structure PeriodViews where
  views_30d : ℤ
  views_15d : ℤ
  views_7d : ℤ
deriving DecidableEq

/-- The loop body of `calculate_views_by_period`: compute
`days_ago = (current_date - pub_date) / 86400` and add the video's views to
every window it falls in. -/
def views_step (current_date : ℚ) (acc : PeriodViews) (v : VideoEntry) :
    PeriodViews :=
  match v.data_publicacao with
  | none => acc
  | some pub =>
    let days_ago : ℚ := (current_date - pub) / 86400
    let a1 := if days_ago ≤ 30 then
        { acc with views_30d := acc.views_30d + v.views_atuais } else acc
    let a2 := if days_ago ≤ 15 then
        { a1 with views_15d := a1.views_15d + v.views_atuais } else a1
    if days_ago ≤ 7 then
      { a2 with views_7d := a2.views_7d + v.views_atuais } else a2

/-- `YouTubeCollector.calculate_views_by_period(self, videos, current_date)`. -/
def calculate_views_by_period (videos : List VideoEntry) (current_date : ℚ) :
    PeriodViews :=
  videos.foldl (views_step current_date) ⟨0, 0, 0⟩

/-! ## Duration parsing (src/collector.py, parse_duration) -/

/-- `int(...)` of a non-empty digit string. -/
def digits_to_nat (ds : List Char) : Nat :=
  ds.foldl (fun acc ch => 10 * acc + (ch.toNat - '0'.toNat)) 0

/-- One optional group `(?:(\d+)U)?` of the duration regex, matched at the
head of `s`: the maximal digit run followed by the unit letter, if present;
otherwise the group matches nothing and contributes 0. -/
def parse_num_unit (unit : Char) (s : List Char) : Nat × List Char :=
  let ds := s.takeWhile Char.isDigit
  if ds.isEmpty then (0, s)
  else
    match s.drop ds.length with
    | u :: r => if u == unit then (digits_to_nat ds, r) else (0, s)
    | [] => (0, s)

/-- Whether `re.match(r'PT(?:(\d+)H)?(?:(\d+)M)?(?:(\d+)S)?', s)` succeeds:
since all three groups are optional, the regex matches exactly the strings
beginning with `PT`. -/
def startsWithPT (s : String) : Bool :=
  match s.data with
  | c1 :: c2 :: _ => c1 == 'P' && c2 == 'T'
  | _ => false

/-- `YouTubeCollector.parse_duration(self, duration_str)`: anchored match of
`PT(?:(\d+)H)?(?:(\d+)M)?(?:(\d+)S)?` (trailing input is ignored), summing
`hours*3600 + minutes*60 + seconds`; any non-matching string yields 0 (the
surrounding `try`/`except` also yields 0 on any error). -/
def parse_duration (duration_str : String) : ℤ :=
  match duration_str.data with
  | c1 :: c2 :: rest =>
    if c1 == 'P' && c2 == 'T' then
      let p1 := parse_num_unit 'H' rest
      let p2 := parse_num_unit 'M' p1.2
      let p3 := parse_num_unit 'S' p2.2
      ((p1.1 * 3600 + p2.1 * 60 + p3.1 : Nat) : ℤ)
    else 0
  | _ => 0

/-! ## Helper lemmas -/

theorem cleanOldList_of_all_ge (cutoff : ℚ) (l : List ℚ)
    (h : ∀ x ∈ l, ¬x < cutoff) : cleanOldList cutoff l = l := by
  cases l with
  | nil => rfl
  | cons t ts =>
    unfold cleanOldList
    rw [if_neg (h t (List.mem_cons_self t ts))]

theorem cleanOldList_length_le (cutoff : ℚ) (l : List ℚ) :
    (cleanOldList cutoff l).length ≤ l.length := by
  induction l with
  | nil => simp [cleanOldList]
  | cons t ts ih =>
    unfold cleanOldList
    by_cases h : t < cutoff
    · rw [if_pos h]
      exact Nat.le_succ_of_le ih
    · rw [if_neg h]

theorem countP_isSome_replicate (n : Nat) :
    (List.replicate n (none : Option Int)).countP (fun d => d.isSome) = 0 := by
  induction n with
  | zero => rfl
  | succ m ih => simp [List.replicate_succ, List.countP_cons, ih]

theorem getD_replicate_none : ∀ (n i : Nat),
    (List.replicate n (none : Option Int)).getD i none = none := by
  intro n
  induction n with
  | zero => intro i; simp [List.replicate]
  | succ m ih =>
    intro i
    cases i with
    | zero => simp [List.replicate_succ]
    | succ j => simp [List.replicate_succ, List.getD_cons_succ, ih]

theorem getD_set_ne : ∀ (l : List (Option Int)) (i j : Nat) (v : Option Int),
    i ≠ j → (l.set i v).getD j none = l.getD j none := by
  intro l
  induction l with
  | nil => intro i j v _; simp [List.set]
  | cons a t ih =>
    intro i j v hij
    cases i with
    | zero =>
      cases j with
      | zero => exact absurd rfl hij
      | succ j' => simp [List.set, List.getD_cons_succ]
    | succ i' =>
      cases j with
      | zero => simp [List.set, List.getD_cons_zero]
      | succ j' =>
        simp only [List.set, List.getD_cons_succ]
        exact ih i' j' v (fun h => hij (by rw [h]))

theorem countP_isSome_set_replicate (d : Int) : ∀ (n i : Nat), i < n →
    ((List.replicate n (none : Option Int)).set i (some d)).countP
      (fun o => o.isSome) = 1 := by
  intro n
  induction n with
  | zero => intro i h; omega
  | succ m ih =>
    intro i h
    cases i with
    | zero =>
      simp [List.replicate_succ, List.set, List.countP_cons, countP_isSome_replicate]
    | succ i' =>
      simp only [List.replicate_succ, List.set, List.countP_cons]
      rw [ih i' (by omega)]
      simp

theorem akx_iff (c : Collector) :
    all_keys_exhausted c = true ↔
      c.exhausted.length ≤ c.exhausted.countP (fun d => d.isSome) := by
  unfold all_keys_exhausted
  exact decide_eq_true_iff

theorem akx_replicate (n i : Nat) (h : 0 < n) :
    all_keys_exhausted ⟨List.replicate n none, i⟩ = false := by
  unfold all_keys_exhausted
  simp only [countP_isSome_replicate, List.length_replicate]
  rw [decide_eq_false_iff_not]
  omega

theorem akx_set_replicate (n i j : Nat) (today : Int) (hn : 2 ≤ n) (hi : i < n) :
    all_keys_exhausted ⟨(List.replicate n none).set i (some today), j⟩ = false := by
  unfold all_keys_exhausted
  simp only [countP_isSome_set_replicate today n i hi, List.length_set,
    List.length_replicate]
  rw [decide_eq_false_iff_not]
  omega

theorem find_available_stop (ex : List (Option Int)) (idx fuel : Nat)
    (h : keyExhausted ex idx = false) (hf : 0 < fuel) :
    find_available ex idx fuel = (idx, 0) := by
  cases fuel with
  | zero => omega
  | succ m => simp [find_available, h]

theorem get_current_of_available (c : Collector)
    (h1 : all_keys_exhausted c = false)
    (h2 : keyExhausted c.exhausted c.current_key_index = false)
    (h3 : 0 < c.exhausted.length) :
    get_current_api_key c = (some c.current_key_index, c) := by
  unfold get_current_api_key
  rw [h1]
  simp only [Bool.false_eq_true, if_false]
  rw [find_available_stop c.exhausted c.current_key_index c.exhausted.length h2 h3]
  rw [if_neg (by omega)]

theorem succ_mod_ne (n i : Nat) (hn : 2 ≤ n) (hi : i < n) : (i + 1) % n ≠ i := by
  rcases Nat.lt_or_ge (i + 1) n with h | h
  · rw [Nat.mod_eq_of_lt h]
    omega
  · have hin : i + 1 = n := by omega
    rw [hin, Nat.mod_self]
    omega

/-! ## Claim C7: the RateWindow properties -/

/-- Claim C7: in a RateWindow with max `M` and interval `W`, (a) after `M`
records within the interval (a state retaining `M` timestamps, each still
strictly inside the window) the next send observes `waitTime() > 0`;
(b) `waitTime()` is 0 whenever `canSend()` is true; (c) once the oldest
retained timestamp has exited the window, `canSend()` is true again. -/
theorem c7_rate_window (rl : RateLimiter) (hmax : 0 < rl.max_requests) :
    (∀ now : ℚ, rl.requests.length = rl.max_requests →
      (∀ x ∈ rl.requests, now - rl.time_window < x) →
      0 < rl.get_wait_time now) ∧
    (∀ now : ℚ, rl.can_make_request now = true → rl.get_wait_time now = 0) ∧
    (∀ (now : ℚ) (oldest : ℚ) (rest : List ℚ), rl.requests = oldest :: rest →
      rl.requests.length ≤ rl.max_requests →
      oldest < now - rl.time_window →
      rl.can_make_request now = true) := by
  refine ⟨?_, ?_, ?_⟩
  · intro now hlen hin
    have hclean : cleanOldList (now - rl.time_window) rl.requests = rl.requests :=
      cleanOldList_of_all_ge _ _ (fun x hx => not_lt.mpr (le_of_lt (hin x hx)))
    rcases hreq : rl.requests with _ | ⟨oldest, rest⟩
    · rw [hreq] at hlen
      simp at hlen
      omega
    · have hmem : oldest ∈ rl.requests := by rw [hreq]; exact List.mem_cons_self _ _
      have hold := hin oldest hmem
      unfold RateLimiter.get_wait_time RateLimiter.clean_old_requests
      simp only [hreq] at hclean ⊢
      rw [hclean]
      rw [if_neg (by rw [hreq] at hlen; omega)]
      have : 0 < oldest + rl.time_window - now := by linarith
      exact lt_max_iff.mpr (Or.inr this)
  · intro now h
    unfold RateLimiter.can_make_request at h
    rw [decide_eq_true_iff] at h
    unfold RateLimiter.get_wait_time
    rw [if_pos h]
  · intro now oldest rest hreq hlen hold
    unfold RateLimiter.can_make_request RateLimiter.clean_old_requests
    simp only [hreq]
    unfold cleanOldList
    rw [if_pos hold]
    rw [decide_eq_true_iff]
    have h1 := cleanOldList_length_le (now - rl.time_window) rest
    rw [hreq] at hlen
    simp at hlen
    omega

/-! ## Claim C2: allExhausted and resetForNewRun -/

/-- Counterexample to C2 as stated: in a single-key pool whose key was
recorded exhausted on day 0, with today = day 1, `all_keys_exhausted`
returns `true` although the credential's exhaustion date does not equal
today — the source compares only the number of recorded entries, never
their dates. -/
theorem c2_counterexample :
    ¬(all_keys_exhausted ⟨[some 0], 0⟩ = true ↔
      ∀ d ∈ [(some 0 : Option Int)], d = some 1) := by
  decide

/-- Claim C2 amended: `all_keys_exhausted` is true iff every credential has
a *recorded* exhaustion date (of any value, not necessarily today); the
second half of the claim is unchanged: `reset_for_new_collection` on a pool
in which every recorded exhaustion date is strictly before today yields a
state where `all_keys_exhausted` is false. -/
theorem c2_amended (c : Collector) (today : Int) :
    (all_keys_exhausted c = true ↔ ∀ d ∈ c.exhausted, d.isSome = true) ∧
    (0 < c.exhausted.length →
      (∀ d ∈ c.exhausted, ∀ x : Int, d = some x → x < today) →
      all_keys_exhausted (reset_for_new_collection today c) = false) := by
  constructor
  · rw [akx_iff]
    constructor
    · intro h
      have hle := List.countP_le_length (fun d : Option Int => d.isSome)
        (l := c.exhausted)
      have heq : c.exhausted.countP (fun d => d.isSome) = c.exhausted.length := by
        omega
      exact fun a ha => List.countP_eq_length.mp heq a ha
    · intro h
      have heq : c.exhausted.countP (fun d : Option Int => d.isSome) =
          c.exhausted.length := List.countP_eq_length.mpr h
      omega
  · intro hn hdates
    unfold all_keys_exhausted reset_for_new_collection
    rw [decide_eq_false_iff_not]
    intro hle
    have hzero : (c.exhausted.map (fun d : Option Int =>
        match d with
        | some x => if x < today then none else some x
        | none => none)).countP (fun d => d.isSome) = 0 := by
      rw [List.countP_eq_zero]
      intro a ha
      rw [List.mem_map] at ha
      obtain ⟨d, hd, hda⟩ := ha
      cases d with
      | none => rw [← hda]; simp
      | some x =>
        have hx : x < today := hdates (some x) hd x rfl
        rw [← hda]
        simp [hx]
    rw [hzero, List.length_map] at hle
    omega

/-- Witness for C2's amended theorem: a two-key pool with both keys recorded
exhausted on day 0 has `all_keys_exhausted` true, and resetting it on day 1
makes `all_keys_exhausted` false. -/
theorem c2_witness :
    all_keys_exhausted ⟨[some 0, some 0], 1⟩ = true ∧
    all_keys_exhausted (reset_for_new_collection 1 ⟨[some 0, some 0], 1⟩) = false := by
  constructor
  · exact (c2_amended ⟨[some 0, some 0], 1⟩ 1).1.mpr (by decide)
  · exact (c2_amended ⟨[some 0, some 0], 1⟩ 1).2 (by decide) (by decide)

/-! ## Claim C1: terminal status of a collection run -/

/-- Counterexample to C1 as stated: one fresh credential, two canals, the
first canal succeeds and exhausts the pool during its processing, so the
loop stops before the second canal (`processed = 1 < 2` with one success and
zero errors).  The code records status "sucesso", but C1's characterization
demands `Partial` for an early stop with unprocessed entities, so it fails
on this run. -/
theorem c1_counterexample :
    ¬c1_status_spec
      (run_collection_job 0 ⟨[none], 0⟩
        [⟨1, 0, fun _ => ⟨[some 0], 0⟩⟩, ⟨0, 1, fun x => x⟩]) 2 := by
  unfold c1_status_spec
  decide

/-- Claim C1 amended: the terminal status depends only on the two counters,
with the `erro == 0` test taking precedence — status is `sucesso` iff zero
canals errored (even on an early stop, and even with zero successes),
`parcial` iff at least one errored and at least one succeeded, and `erro`
iff at least one errored and none succeeded; early stop on pool exhaustion
plays no separate role. -/
theorem c1_amended (today : Int) (c : Collector) (steps : List EntityStep) :
    ((run_collection_job today c steps).status = "sucesso" ↔
      (run_collection_job today c steps).canais_erro = 0) ∧
    ((run_collection_job today c steps).status = "parcial" ↔
      0 < (run_collection_job today c steps).canais_erro ∧
      0 < (run_collection_job today c steps).canais_sucesso) ∧
    ((run_collection_job today c steps).status = "erro" ↔
      0 < (run_collection_job today c steps).canais_erro ∧
      (run_collection_job today c steps).canais_sucesso = 0) := by
  simp only [run_collection_job]
  generalize (collection_loop (reset_for_new_collection today c) steps).1 = s
  generalize (collection_loop (reset_for_new_collection today c) steps).2.1 = e
  unfold collection_status
  by_cases he : e = 0
  · subst he
    simp
  · rw [if_neg he]
    by_cases hs : 0 < s
    · rw [if_pos hs]
      refine ⟨?_, ?_, ?_⟩ <;> simp_all <;> omega
    · rw [if_neg hs]
      refine ⟨?_, ?_, ?_⟩ <;> simp_all <;> omega

/-- Witness for C7 at the concrete window `max 2 per 100s` holding
timestamps 5 and 10: at time 20 the window is full and the wait is positive;
at time 200 both timestamps have exited, the wait is 0 and sending is
allowed. -/
theorem c7_witness :
    0 < RateLimiter.get_wait_time ⟨2, 100, [5, 10]⟩ 20 ∧
    RateLimiter.get_wait_time ⟨2, 100, [5, 10]⟩ 200 = 0 ∧
    RateLimiter.can_make_request ⟨2, 100, [5, 10]⟩ 200 = true := by
  refine ⟨?_, ?_, ?_⟩
  · exact (c7_rate_window ⟨2, 100, [5, 10]⟩ (by decide)).1 20 (by decide)
      (by norm_num [List.forall_mem_cons])
  · exact (c7_rate_window ⟨2, 100, [5, 10]⟩ (by decide)).2.1 200
      (by norm_num [RateLimiter.can_make_request, RateLimiter.clean_old_requests,
        cleanOldList])
  · exact (c7_rate_window ⟨2, 100, [5, 10]⟩ (by decide)).2.2 200 5 [10] rfl
      (by decide) (by norm_num)

/-! ## Claim C5: early stop of the orchestrator loop -/

/-- Claim C5: the entity loop of `run_collection_job` has prefix semantics —
only the first `processed` entities are attempted, `canais_sucesso` and
`canais_erro` count exactly those entities' increments, any entity left
unprocessed means the loop exited on a pool-exhaustion check, and a pool
that is fully exhausted when an entity is reached stops the loop at once
(zero further attempts, zero further error counts). -/
theorem collection_loop_cons (c : Collector) (st : EntityStep)
    (rest : List EntityStep) :
    collection_loop c (st :: rest) =
      if all_keys_exhausted c then (0, 0, 0, c)
      else
        (st.dSucc + (collection_loop (st.update c) rest).1,
         st.dErr + (collection_loop (st.update c) rest).2.1,
         1 + (collection_loop (st.update c) rest).2.2.1,
         (collection_loop (st.update c) rest).2.2.2) := by
  rfl

theorem c5_early_stop (c : Collector) (steps : List EntityStep) :
    (collection_loop c steps).2.2.1 ≤ steps.length ∧
    (collection_loop c steps).1 =
      ((steps.take (collection_loop c steps).2.2.1).map
        (fun st => st.dSucc)).sum ∧
    (collection_loop c steps).2.1 =
      ((steps.take (collection_loop c steps).2.2.1).map
        (fun st => st.dErr)).sum ∧
    ((collection_loop c steps).2.2.1 < steps.length →
      all_keys_exhausted (collection_loop c steps).2.2.2 = true) ∧
    (all_keys_exhausted c = true → collection_loop c steps = (0, 0, 0, c)) := by
  induction steps generalizing c with
  | nil =>
    refine ⟨Nat.le_refl _, rfl, rfl, ?_, fun _ => rfl⟩
    intro h
    simp [collection_loop] at h
  | cons st rest ih =>
    by_cases hex : all_keys_exhausted c = true
    · have hloop : collection_loop c (st :: rest) = (0, 0, 0, c) := by
        rw [collection_loop_cons, hex]
        simp
      refine ⟨?_, ?_, ?_, ?_, fun _ => hloop⟩ <;> rw [hloop] <;> simp [hex]
    · have hexf : all_keys_exhausted c = false := by
        cases h : all_keys_exhausted c
        · rfl
        · exact absurd h hex
      obtain ⟨ih1, ih2, ih3, ih4, _⟩ := ih (st.update c)
      have hloop : collection_loop c (st :: rest) =
          (st.dSucc + (collection_loop (st.update c) rest).1,
           st.dErr + (collection_loop (st.update c) rest).2.1,
           1 + (collection_loop (st.update c) rest).2.2.1,
           (collection_loop (st.update c) rest).2.2.2) := by
        rw [collection_loop_cons, hexf]
        simp
      refine ⟨?_, ?_, ?_, ?_, ?_⟩
      · rw [hloop]
        simp only [List.length_cons]
        omega
      · rw [hloop]
        simp only [List.take_succ_cons, Nat.add_comm 1, List.map_cons, List.sum_cons]
        rw [ih2]
      · rw [hloop]
        simp only [List.take_succ_cons, Nat.add_comm 1, List.map_cons, List.sum_cons]
        rw [ih3]
      · rw [hloop]
        intro h
        simp only [List.length_cons] at h
        exact ih4 (by omega)
      · intro h
        exact absurd h hex

/-- Witness for C5: with one fresh key and two canals of which the first
exhausts the pool, the final pool state at the break is fully exhausted
(instantiating the early-stop implication at `processed = 1 < 2`), and
starting from an exhausted pool the loop does nothing at all. -/
theorem c5_witness :
    all_keys_exhausted
      (collection_loop ⟨[none], 0⟩
        [⟨1, 0, fun _ => ⟨[some 0], 0⟩⟩, ⟨0, 1, fun x => x⟩]).2.2.2 = true ∧
    collection_loop ⟨[some 0], 0⟩
        [⟨1, 0, fun _ => ⟨[some 0], 0⟩⟩, ⟨0, 1, fun x => x⟩] =
      (0, 0, 0, ⟨[some 0], 0⟩) := by
  constructor
  · exact (c5_early_stop ⟨[none], 0⟩
      [⟨1, 0, fun _ => ⟨[some 0], 0⟩⟩, ⟨0, 1, fun x => x⟩]).2.2.2.1 (by decide)
  · exact (c5_early_stop ⟨[some 0], 0⟩
      [⟨1, 0, fun _ => ⟨[some 0], 0⟩⟩, ⟨0, 1, fun x => x⟩]).2.2.2.2 (by decide)

/-! ## Claim C10: totality of parse_duration -/

/-- Claim C10: `parse_duration` is a total function returning a non-negative
number of seconds on every input, and every string on which the anchored
regex fails (i.e. that does not begin with "PT", all three groups being
optional) yields 0. -/
theorem c10_parse_duration_total (s : String) :
    0 ≤ parse_duration s ∧ (startsWithPT s = false → parse_duration s = 0) := by
  cases s with
  | mk l =>
    cases l with
    | nil => exact ⟨le_refl 0, fun _ => rfl⟩
    | cons c1 t =>
      cases t with
      | nil => exact ⟨le_refl 0, fun _ => rfl⟩
      | cons c2 rest =>
        by_cases h : (c1 == 'P' && c2 == 'T') = true
        · constructor
          · unfold parse_duration
            simp only [h, if_true]
            exact Int.natCast_nonneg _
          · intro hpt
            unfold startsWithPT at hpt
            simp only at hpt
            rw [h] at hpt
            cases hpt
        · have hf : (c1 == 'P' && c2 == 'T') = false := by
            cases hb : (c1 == 'P' && c2 == 'T')
            · rfl
            · exact absurd hb h
          constructor
          · unfold parse_duration
            simp only [hf]
            norm_num
          · intro _
            unfold parse_duration
            simp only [hf]
            norm_num

/-- Witness for C10: a well-formed duration parses to a non-negative value
(indeed 3723 seconds), and a string not starting with "PT" parses to 0. -/
theorem c10_witness :
    0 ≤ parse_duration "PT1H2M3S" ∧ parse_duration "hello" = 0 :=
  ⟨(c10_parse_duration_total "PT1H2M3S").1,
   (c10_parse_duration_total "hello").2 (by decide)⟩

/-! ## Claim C9: monotonicity of the windowed view sums -/

/-- One `views_step` preserves the ordering of the three accumulators when
the video's view count is non-negative. -/
theorem views_step_mono (current_date : ℚ) (acc : PeriodViews) (v : VideoEntry)
    (hv : 0 ≤ v.views_atuais)
    (h1 : acc.views_7d ≤ acc.views_15d) (h2 : acc.views_15d ≤ acc.views_30d) :
    (views_step current_date acc v).views_7d ≤
      (views_step current_date acc v).views_15d ∧
    (views_step current_date acc v).views_15d ≤
      (views_step current_date acc v).views_30d := by
  unfold views_step
  cases hp : v.data_publicacao with
  | none => exact ⟨h1, h2⟩
  | some pub =>
    simp only
    by_cases h30 : (current_date - pub) / 86400 ≤ 30 <;>
      by_cases h15 : (current_date - pub) / 86400 ≤ 15 <;>
        by_cases h7 : (current_date - pub) / 86400 ≤ 7 <;>
          simp only [h30, h15, h7, if_true, if_false] <;>
            constructor <;> linarith

/-- The fold of `views_step` preserves the ordering of the accumulators. -/
theorem views_fold_mono (current_date : ℚ) :
    ∀ (videos : List VideoEntry) (acc : PeriodViews),
      (∀ v ∈ videos, 0 ≤ v.views_atuais) →
      acc.views_7d ≤ acc.views_15d → acc.views_15d ≤ acc.views_30d →
      (videos.foldl (views_step current_date) acc).views_7d ≤
        (videos.foldl (views_step current_date) acc).views_15d ∧
      (videos.foldl (views_step current_date) acc).views_15d ≤
        (videos.foldl (views_step current_date) acc).views_30d := by
  intro videos
  induction videos with
  | nil => intro acc _ h1 h2; exact ⟨h1, h2⟩
  | cons v rest ih =>
    intro acc hmem h1 h2
    have hv : 0 ≤ v.views_atuais := hmem v (List.mem_cons_self _ _)
    obtain ⟨hs1, hs2⟩ := views_step_mono current_date acc v hv h1 h2
    exact ih (views_step current_date acc v)
      (fun x hx => hmem x (List.mem_cons_of_mem _ hx)) hs1 hs2

/-- Claim C9: for videos with non-negative view counts, the windowed sums of
`calculate_views_by_period` are monotone in the window length:
`views_7d ≤ views_15d ≤ views_30d`. -/
theorem c9_views_monotone (videos : List VideoEntry) (current_date : ℚ)
    (h : ∀ v ∈ videos, 0 ≤ v.views_atuais) :
    (calculate_views_by_period videos current_date).views_7d ≤
      (calculate_views_by_period videos current_date).views_15d ∧
    (calculate_views_by_period videos current_date).views_15d ≤
      (calculate_views_by_period videos current_date).views_30d := by
  unfold calculate_views_by_period
  exact views_fold_mono current_date videos ⟨0, 0, 0⟩ h (le_refl 0) (le_refl 0)

/-- Witness for C9 on a single one-day-old video with 10 views. -/
theorem c9_witness :
    (calculate_views_by_period [⟨some 0, 10⟩] 86400).views_7d ≤
      (calculate_views_by_period [⟨some 0, 10⟩] 86400).views_15d ∧
    (calculate_views_by_period [⟨some 0, 10⟩] 86400).views_15d ≤
      (calculate_views_by_period [⟨some 0, 10⟩] 86400).views_30d :=
  c9_views_monotone [⟨some 0, 10⟩] 86400 (by decide)

/-! ## Claims C3 and C4: the executor's retry/rotation policy -/

/-- `mark_key_as_exhausted` on an otherwise fresh pool of `n ≥ 2` keys with
current key `i`: key `i` gets today's date recorded and the pool rotates to
the round-robin successor `(i+1) % n`. -/
theorem mark_fresh (n i : Nat) (today : Int) (hn : 2 ≤ n) (hi : i < n) :
    mark_key_as_exhausted today ⟨List.replicate n none, i⟩ =
      ⟨(List.replicate n none).set i (some today), (i + 1) % n⟩ := by
  have hne : i ≠ (i + 1) % n := Ne.symm (succ_mod_ne n i hn hi)
  have hkey : keyExhausted ((List.replicate n none).set i (some today))
      ((i + 1) % n) = false := by
    unfold keyExhausted
    rw [getD_set_ne _ _ _ _ hne, getD_replicate_none]
    rfl
  have hlen : ((List.replicate n (none : Option Int)).set i (some today)).length
      = n := by simp
  simp only [mark_key_as_exhausted, rotate_to_next_key]
  rw [hlen]
  rw [find_available_stop _ _ _ hkey (by omega)]

/-- Claim C3: on a fresh pool of `n ≥ 2` credentials with current credential
`A = i`, an upstream that answers the first request with a quota-exhaustion
error and the retried request with success makes `make_api_request` mark `A`
exhausted with today's date, rotate, retry within the attempt budget (the
trace shows exactly one retried request), and return success with the pool's
current credential being the round-robin successor `B = (i+1) % n`. -/
theorem c3_quota_rotation (n i : Nat) (today : Int) (hn : 2 ≤ n) (hi : i < n) :
    make_api_request today ⟨List.replicate n none, i⟩
        [ApiResponse.quotaError, ApiResponse.ok] 0 =
      (some (), ⟨(List.replicate n none).set i (some today), (i + 1) % n⟩,
        [Event.call i, Event.call ((i + 1) % n)]) := by
  have h0 : 0 < n := by omega
  have hA : all_keys_exhausted ⟨List.replicate n none, i⟩ = false :=
    akx_replicate n i h0
  have hkey : keyExhausted (List.replicate n (none : Option Int)) i = false := by
    unfold keyExhausted
    rw [getD_replicate_none]
    rfl
  have hcur : get_current_api_key ⟨List.replicate n none, i⟩ =
      (some i, ⟨List.replicate n none, i⟩) :=
    get_current_of_available _ hA hkey (by simpa using h0)
  have hmark := mark_fresh n i today hn hi
  have hA2 : all_keys_exhausted
      ⟨(List.replicate n none).set i (some today), (i + 1) % n⟩ = false :=
    akx_set_replicate n i ((i + 1) % n) today hn hi
  have hkey2 : keyExhausted ((List.replicate n none).set i (some today))
      ((i + 1) % n) = false := by
    unfold keyExhausted
    rw [getD_set_ne _ _ _ _ (Ne.symm (succ_mod_ne n i hn hi)), getD_replicate_none]
    rfl
  have hcur2 : get_current_api_key
      ⟨(List.replicate n none).set i (some today), (i + 1) % n⟩ =
      (some ((i + 1) % n),
        ⟨(List.replicate n none).set i (some today), (i + 1) % n⟩) :=
    get_current_of_available _ hA2 hkey2 (by simp [h0])
  simp [make_api_request, hA, hcur, hmark, hA2, hcur2, max_retries]

/-- Witness for C3 in a two-key pool with current key 0: the executor
succeeds, key 0 carries today's date, and the current key is 1 afterwards. -/
theorem c3_witness :
    make_api_request 0 ⟨List.replicate 2 none, 0⟩
        [ApiResponse.quotaError, ApiResponse.ok] 0 =
      (some (), ⟨(List.replicate 2 none).set 0 (some 0), (0 + 1) % 2⟩,
        [Event.call 0, Event.call ((0 + 1) % 2)]) :=
  c3_quota_rotation 2 0 0 (by decide) (by decide)

/-- Claim C4: on a fresh pool with current credential `i`, an upstream that
answers with a transient rate-limit error twice and then success makes
`make_api_request` back off `30·2^0` then `30·2^1` seconds and retry on the
same credential: it returns success, the pool state is unchanged (no
rotation, no credential marked exhausted), and every request of the trace
uses credential `i`. -/
theorem c4_ratelimit_same_key (n i : Nat) (today : Int) (hn : 1 ≤ n) (_hi : i < n) :
    make_api_request today ⟨List.replicate n none, i⟩
        [ApiResponse.rateLimitError, ApiResponse.rateLimitError, ApiResponse.ok]
        0 =
      (some (), ⟨List.replicate n none, i⟩,
        [Event.call i, Event.wait 30, Event.call i, Event.wait 60,
          Event.call i]) := by
  have h0 : 0 < n := hn
  have hA : all_keys_exhausted ⟨List.replicate n none, i⟩ = false :=
    akx_replicate n i h0
  have hkey : keyExhausted (List.replicate n (none : Option Int)) i = false := by
    unfold keyExhausted
    rw [getD_replicate_none]
    rfl
  have hcur : get_current_api_key ⟨List.replicate n none, i⟩ =
      (some i, ⟨List.replicate n none, i⟩) :=
    get_current_of_available _ hA hkey (by simpa using h0)
  simp [make_api_request, hA, hcur, max_retries]

/-- Witness for C4 in a one-key pool. -/
theorem c4_witness :
    make_api_request 0 ⟨List.replicate 1 none, 0⟩
        [ApiResponse.rateLimitError, ApiResponse.rateLimitError, ApiResponse.ok]
        0 =
      (some (), ⟨List.replicate 1 none, 0⟩,
        [Event.call 0, Event.wait 30, Event.call 0, Event.wait 60,
          Event.call 0]) :=
  c4_ratelimit_same_key 1 0 0 (by decide) (by decide)

/-! ## Claim C8: partial data on pool exhaustion during pagination -/

/-- Manual unfolding equation for the `while True` pagination loop. -/
theorem videos_loop_cons (c : Collector) (st : PageStep) (rest : List PageStep) :
    get_channel_videos_loop c (st :: rest) =
      if all_keys_exhausted c then ([], c)
      else
        match st.response with
        | none => ([], st.update c)
        | some (items, hasNext) =>
          if items.isEmpty then ([], st.update c)
          else
            let vids := items.filterMap (fun p => p.2.map (fun d => (p.1, d)))
            if hasNext then
              (vids ++ (get_channel_videos_loop (st.update c) rest).1,
                (get_channel_videos_loop (st.update c) rest).2)
            else (vids, st.update c) := by
  rfl

/-- If the pool is fully exhausted after the pages of `pre` (all of which
were fully processed), the pagination loop ignores any further pages and
returns exactly the items accumulated from `pre`. -/
theorem videos_loop_stops :
    ∀ (pre : List PageStep) (c : Collector) (post : List PageStep),
      processes_all c pre = true →
      all_keys_exhausted (pool_after c pre) = true →
      get_channel_videos_loop c (pre ++ post) =
        (accum_vids pre, pool_after c pre) := by
  intro pre
  induction pre with
  | nil =>
    intro c post _ hex
    simp only [List.nil_append, accum_vids, pool_after]
    have hexc : all_keys_exhausted c = true := hex
    cases post with
    | nil => rfl
    | cons p rest =>
      rw [videos_loop_cons, hexc]
      simp
  | cons st pre' ih =>
    intro c post hpre hex
    simp only [processes_all, Bool.and_eq_true] at hpre
    obtain ⟨⟨hnex, hresp⟩, hrest⟩ := hpre
    rw [Bool.not_eq_true'] at hnex
    rcases hr : st.response with _ | ⟨items, hasNext⟩
    · rw [hr] at hresp
      simp at hresp
    · rw [hr] at hresp
      simp only [Bool.and_eq_true, Bool.not_eq_true'] at hresp
      obtain ⟨hne, hnx⟩ := hresp
      have hex' : all_keys_exhausted (pool_after (st.update c) pre') = true := hex
      rw [List.cons_append, videos_loop_cons, hnex]
      simp only [Bool.false_eq_true, if_false, hr, hne, hnx, if_true]
      rw [ih (st.update c) post hrest hex']
      simp only [accum_vids, pool_after, hr]

/-- Claim C8: if the credential pool becomes fully exhausted mid-pagination
(after the fully-processed pages `pre`, with pages `post` still to come),
`get_channel_videos` stops paging and returns the items accumulated so far
as an ordinary (partial) result — the same shape a fully successful fetch
returns — rather than an error. -/
theorem c8_partial_on_exhaustion (channel_id : List Char) (c : Collector)
    (pre post : List PageStep)
    (hcid : is_valid_channel_id channel_id = true)
    (hpre : processes_all c pre = true)
    (hex : all_keys_exhausted (pool_after c pre) = true) :
    get_channel_videos channel_id c (pre ++ post) =
      (accum_vids pre, pool_after c pre) := by
  unfold get_channel_videos
  rw [hcid]
  simp only [Bool.true_eq_false, if_false]
  cases pre with
  | nil =>
    have hexc : all_keys_exhausted c = true := hex
    rw [hexc]
    simp [accum_vids, pool_after, hexc]
  | cons st pre' =>
    have hnex : all_keys_exhausted c = false := by
      simp only [processes_all, Bool.and_eq_true, Bool.not_eq_true'] at hpre
      exact hpre.1.1
    rw [hnex]
    simp only [Bool.false_eq_true, if_false]
    exact videos_loop_stops (st :: pre') c post hpre hex

/-- Witness for C8: one key, one fully-processed page holding a hydrated
item `(1, 5)` whose traffic exhausts the pool, one unreached page; the
fetcher returns the single accumulated item. -/
theorem c8_witness :
    get_channel_videos "UCabcdefghijklmnopqrstuv".data ⟨[none], 0⟩
        ([⟨fun _ => ⟨[some 0], 0⟩, some ([(1, some 5)], true)⟩] ++
          [⟨fun x => x, none⟩]) =
      (accum_vids [⟨fun _ => ⟨[some 0], 0⟩, some ([(1, some 5)], true)⟩],
        pool_after ⟨[none], 0⟩
          [⟨fun _ => ⟨[some 0], 0⟩, some ([(1, some 5)], true)⟩]) :=
  c8_partial_on_exhaustion "UCabcdefghijklmnopqrstuv".data ⟨[none], 0⟩
    [⟨fun _ => ⟨[some 0], 0⟩, some ([(1, some 5)], true)⟩]
    [⟨fun x => x, none⟩] (by decide) (by decide) (by decide)

/-! ## Claim C6: resolving an already-canonical identifier -/

/-- The handle/custom/user fall-through never classifies a reference as a
direct canonical id. -/
theorem extract_handle_or_user_ne_id (url : List Char) :
    (extract_handle_or_user url).2 ≠ "id" := by
  unfold extract_handle_or_user
  split
  · simp
  · split
    · simp
    · split
      · simp
      · simp

/-- A reference classified as a direct canonical id carries a valid id. -/
theorem extract_id_valid (url cid : List Char)
    (h : extract_channel_identifier url = (some cid, "id")) :
    is_valid_channel_id cid = true := by
  simp only [extract_channel_identifier] at h
  cases h1 : search_capture "youtube.com/channel/".data is_word_char
      (clean_youtube_url url) with
  | none =>
    rw [h1] at h
    simp only at h
    exact absurd (congrArg Prod.snd h) (extract_handle_or_user_ne_id _)
  | some c0 =>
    rw [h1] at h
    simp only at h
    by_cases hv : is_valid_channel_id c0 = true
    · rw [if_pos hv] at h
      have hc : c0 = cid := by
        have := congrArg Prod.fst h
        simpa using this
      rw [← hc]
      exact hv
    · rw [if_neg hv] at h
      exact absurd (congrArg Prod.snd h) (extract_handle_or_user_ne_id _)

/-- Counterexample to C6 as stated: the reference
"UCabcdefghijklmnopqrstuv" *is* a valid canonical identifier (prefix "UC",
length 24), yet `get_channel_id` does not return it: the extractor only
recognizes canonical ids embedded in a `youtube.com/channel/...` URL, so a
bare canonical id falls through to `(None, 'unknown')` and resolution
returns no identifier (the oracle shows no executor call is made either, so
only the "returns that identifier" half of the claim fails). -/
theorem c6_counterexample :
    is_valid_channel_id "UCabcdefghijklmnopqrstuv".data = true ∧
    get_channel_id (fun _ => (some "X".data, 1))
        "UCabcdefghijklmnopqrstuv".data = (none, 0) ∧
    get_channel_id (fun _ => (some "X".data, 1))
        "UCabcdefghijklmnopqrstuv".data ≠
      (some "UCabcdefghijklmnopqrstuv".data, 0) := by
  refine ⟨by decide, by decide, by decide⟩

/-- Claim C6 amended: whenever the extractor classifies a reference as a
direct canonical id — which happens exactly for references carrying a
`youtube.com/channel/<valid id>` component, not for bare id strings —
`get_channel_id` returns that identifier and issues zero network calls
through the Request Executor (the result does not consult the handle
resolver at all and reports 0 executor calls). -/
theorem c6_amended (url cid : List Char)
    (resolve_handle : List Char → Option (List Char) × Nat)
    (h : extract_channel_identifier url = (some cid, "id")) :
    get_channel_id resolve_handle url = (some cid, 0) := by
  have hv := extract_id_valid url cid h
  unfold get_channel_id
  rw [h]
  simp [hv]

/-- Witness for C6's amended theorem: a channel URL embedding a valid
canonical id resolves to that id with zero executor calls, for an oracle
that would otherwise report a call. -/
theorem c6_witness :
    get_channel_id (fun _ => (some "X".data, 1))
        "https://www.youtube.com/channel/UCabcdefghijklmnopqrstuv".data =
      (some "UCabcdefghijklmnopqrstuv".data, 0) :=
  c6_amended "https://www.youtube.com/channel/UCabcdefghijklmnopqrstuv".data
    "UCabcdefghijklmnopqrstuv".data (fun _ => (some "X".data, 1)) (by decide)

end YTDB
